import Mathlib

/-!
# NaseejMesh core — verification of the routing / security / supervision substrate

Shallow embedding of the parts of the NaseejMesh gateway that the spec's
testable properties talk about, translated from the Rust sources:

* `crates/gateway-core/src/router.rs` — router table build and path matching
* `crates/surreal-config/src/schema.rs` — route validation and CRUD
* `crates/naseej-security/src/rate_limit.rs` — token-bucket rate limiter
* `crates/naseej-security/src/auth.rs` — JWT validation with claim cache
* `crates/naseej-security/src/waf.rs` — WAF pattern scan
* `crates/protocol-adapters/src/mqtt/bridge.rs` — MQTT topic matching
* `crates/protocol-adapters/src/supervisor.rs` — listener reconcile
* `crates/cognitive-core/src/rhai_engine.rs` — script validate/execute

Rust `String`s are embedded as Lean `String`/`List Char`; `HashMap` as an
association list with replace-on-insert; `f64` token arithmetic as exact
rationals; wall-clock instants as explicit elapsed-time / timestamp
parameters; external library calls (regex compilation of user patterns,
JWT signature verification, the Rhai compiler and interpreter) as abstract
function-valued fields of the embedding structures.
-/

set_option autoImplicit false

namespace NaseejMesh

/-! ## Association lists standing in for `HashMap` -/

/-- `HashMap::get`: first (unique, after `alInsert`) binding of a key. -/
def alGet {β : Type} (m : List (String × β)) (k : String) : Option β :=
  match m with
  | [] => none
  | (k', v) :: rest => if k' = k then some v else alGet rest k

/-- `HashMap::insert`: replace the binding of `k` if present, else append. -/
def alInsert {β : Type} (m : List (String × β)) (k : String) (v : β) :
    List (String × β) :=
  match m with
  | [] => [(k, v)]
  | (k', v') :: rest => if k' = k then (k, v) :: rest else (k', v') :: alInsert rest k v

theorem alGet_alInsert {β : Type} (m : List (String × β)) (k p : String) (v : β) :
    alGet (alInsert m k v) p = if p = k then some v else alGet m p := by
  induction m with
  | nil =>
    by_cases hp : p = k
    · subst hp; simp [alInsert, alGet]
    · simp [alInsert, alGet, hp, Ne.symm hp]
  | cons hd tl ih =>
    obtain ⟨k', v'⟩ := hd
    by_cases hk : k' = k
    · subst hk
      by_cases hp : p = k'
      · subst hp; simp [alInsert, alGet]
      · simp [alInsert, alGet, hp, Ne.symm hp]
    · by_cases hp : p = k'
      · subst hp
        simp [alInsert, alGet, hk]
      · simp [alInsert, alGet, hk, hp, Ne.symm hp, ih]

theorem mem_of_alGet_eq_some {β : Type} (m : List (String × β)) (k : String) (v : β)
    (h : alGet m k = some v) : (k, v) ∈ m := by
  induction m with
  | nil => simp [alGet] at h
  | cons hd tl ih =>
    obtain ⟨k', v'⟩ := hd
    by_cases hk : k' = k
    · subst hk
      simp [alGet] at h
      simp [h]
    · simp [alGet, hk] at h
      exact List.mem_cons_of_mem _ (ih h)

theorem mem_alInsert {β : Type} (m : List (String × β)) (k : String) (v : β)
    (x : String × β) (h : x ∈ alInsert m k v) : x = (k, v) ∨ x ∈ m := by
  induction m with
  | nil => simp [alInsert] at h; simp [h]
  | cons hd tl ih =>
    obtain ⟨k', v'⟩ := hd
    by_cases hk : k' = k
    · simp [alInsert, hk] at h
      rcases h with h | h
      · exact Or.inl h
      · exact Or.inr (List.mem_cons_of_mem _ h)
    · simp [alInsert, hk] at h
      rcases h with h | h
      · exact Or.inr (by simp [h])
      · rcases ih h with h' | h'
        · exact Or.inl h'
        · exact Or.inr (List.mem_cons_of_mem _ h')

/-! ## Router table (`gateway-core/src/router.rs`)

`Route` is the record from `gateway-core/src/config.rs`; `RouterMap` stands
for `HashMap<String, Route>`.
-/

structure Route where
  id : String
  path : String
  upstream : String
  weight : Nat
  active : Bool
  methods : List String
  timeout_ms : Nat
  description : String
deriving DecidableEq, Repr

abbrev RouterMap : Type := List (String × Route)

/-- `build_router_map`: keep only active routes, key the map by `path`. -/
def build_router_map (routes : List Route) : RouterMap :=
  (routes.filter (fun r => r.active)).foldl (fun m r => alInsert m r.path r) []

/-- `str::trim_end_matches('/')` on the character-list view. -/
def trimEndSlashes (s : List Char) : List Char :=
  (s.reverse.dropWhile (fun c => c = '/')).reverse

/-- `pattern.strip_suffix("/*")`. -/
def stripWildcard (pat : List Char) : Option (List Char) :=
  if ['/', '*'].isSuffixOf pat then some (pat.take (pat.length - 2)) else none

/-- `path_matches` from `router.rs`: wildcard `/*` patterns, trailing-`/`
prefix patterns, exact patterns. -/
def path_matches (path pattern : String) : Bool :=
  let p := path.data
  let pat := pattern.data
  match stripWildcard pat with
  | some pre =>
      pre.isPrefixOf p &&
        (decide (p.length = pre.length) || (p.drop pre.length).head? == some '/')
  | none =>
      if pat.getLast? == some '/' then
        pat.isPrefixOf p || decide (p = trimEndSlashes pat)
      else decide (p = pat)

/-- One step of `Iterator::max_by_key` on pattern length; as in Rust, a later
element ties out an earlier maximum. -/
def maxStep (acc : Option (String × Route)) (kv : String × Route) :
    Option (String × Route) :=
  match acc with
  | none => some kv
  | some best => if best.1.length ≤ kv.1.length then some kv else some best

/-- `Iterator::max_by_key` on pattern length. -/
def maxByPatternLen (l : List (String × Route)) : Option (String × Route) :=
  l.foldl maxStep none

/-- `match_route`: exact lookup first, then longest matching pattern. -/
def match_route (path : String) (map : RouterMap) : Option Route :=
  match alGet map path with
  | some r => some r
  | none =>
      (maxByPatternLen (map.filter (fun kv => path_matches path kv.1))).map (fun kv => kv.2)

/-- Folding `maxStep` over a list all of whose elements are `a` yields `a`,
whether started from `none` (on a non-empty list) or from `some a`. -/
theorem foldl_maxStep_const (a : String × Route) :
    ∀ (l : List (String × Route)) (acc : Option (String × Route)),
      (∀ x ∈ l, x = a) → (acc = some a ∨ (acc = none ∧ l ≠ [])) →
      l.foldl maxStep acc = some a := by
  intro l
  induction l with
  | nil =>
    intro acc _ hacc
    rcases hacc with h | ⟨_, h⟩
    · simpa using h
    · exact absurd rfl h
  | cons hd tl ih =>
    intro acc hall hacc
    have hhd : hd = a := hall hd (by simp)
    have htl : ∀ x ∈ tl, x = a := fun x hx => hall x (List.mem_cons_of_mem _ hx)
    have hstep : maxStep acc hd = some a := by
      rcases hacc with h | ⟨h, _⟩ <;> subst h <;> simp [maxStep, hhd]
    rw [List.foldl_cons, hstep]
    exact ih (some a) htl (Or.inl rfl)

/-- If every element of `l` is the same pair `a` and `l` is non-empty,
`maxByPatternLen` returns `a`. -/
theorem maxByPatternLen_const (l : List (String × Route)) (a : String × Route)
    (hall : ∀ x ∈ l, x = a) (hne : l ≠ []) : maxByPatternLen l = some a :=
  foldl_maxStep_const a l none hall (Or.inr ⟨rfl, hne⟩)

/-- If `path` has no exact entry, `(k, r)` is in the map and matches `path`,
and every matching entry of the map equals `(k, r)`, then `match_route`
returns `r`. -/
theorem match_route_unique (path : String) (m : RouterMap) (k : String) (r : Route)
    (hexact : alGet m path = none) (hmem : (k, r) ∈ m)
    (hmatch : path_matches path k = true)
    (huniq : ∀ kv ∈ m, path_matches path kv.1 = true → kv = (k, r)) :
    match_route path m = some r := by
  unfold match_route
  rw [hexact]
  have hmemf : (k, r) ∈ m.filter (fun kv => path_matches path kv.1) :=
    List.mem_filter.mpr ⟨hmem, hmatch⟩
  have hall : ∀ x ∈ m.filter (fun kv => path_matches path kv.1), x = (k, r) := by
    intro x hx
    rcases List.mem_filter.mp hx with ⟨hxm, hxp⟩
    exact huniq x hxm hxp
  have hne : m.filter (fun kv => path_matches path kv.1) ≠ [] := by
    intro hnil
    rw [hnil] at hmemf
    simp at hmemf
  rw [maxByPatternLen_const _ _ hall hne]
  rfl

/-! ### Lemmas about `build_router_map`'s fold -/

theorem alGet_foldRoutes (rs : List Route) :
    ∀ (m : List (String × Route)) (p : String) (r : Route),
      alGet (rs.foldl (fun m r => alInsert m r.path r) m) p = some r →
      (r ∈ rs ∧ r.path = p) ∨ alGet m p = some r := by
  induction rs with
  | nil => intro m p r h; exact Or.inr h
  | cons r0 rs ih =>
    intro m p r h
    rcases ih (alInsert m r0.path r0) p r h with h' | h'
    · exact Or.inl ⟨List.mem_cons_of_mem _ h'.1, h'.2⟩
    · rw [alGet_alInsert] at h'
      by_cases hp : p = r0.path
      · rw [if_pos hp] at h'
        cases h'
        exact Or.inl ⟨by simp, hp.symm⟩
      · rw [if_neg hp] at h'
        exact Or.inr h'

theorem alGet_foldRoutes_noKey (rs : List Route) :
    ∀ (m : List (String × Route)) (p : String), (∀ s ∈ rs, s.path ≠ p) →
      alGet (rs.foldl (fun m r => alInsert m r.path r) m) p = alGet m p := by
  induction rs with
  | nil => intro m p _; rfl
  | cons r0 rs ih =>
    intro m p hno
    have h0 : r0.path ≠ p := hno r0 (by simp)
    rw [List.foldl_cons, ih (alInsert m r0.path r0) p
        (fun s hs => hno s (List.mem_cons_of_mem _ hs)),
      alGet_alInsert, if_neg (fun h => h0 h.symm)]

theorem alGet_foldRoutes_some (rs : List Route) :
    ∀ (m : List (String × Route)) (p : String),
      ((∃ v, alGet m p = some v) ∨ (∃ s ∈ rs, s.path = p)) →
      ∃ v, alGet (rs.foldl (fun m r => alInsert m r.path r) m) p = some v := by
  induction rs with
  | nil =>
    intro m p h
    rcases h with h | ⟨s, hs, _⟩
    · exact h
    · simp at hs
  | cons r0 rs ih =>
    intro m p h
    rw [List.foldl_cons]
    by_cases hp : p = r0.path
    · exact ih _ p (Or.inl ⟨r0, by rw [alGet_alInsert, if_pos hp]⟩)
    · rcases h with ⟨v, hv⟩ | ⟨s, hs, hsp⟩
      · exact ih _ p (Or.inl ⟨v, by rw [alGet_alInsert, if_neg hp]; exact hv⟩)
      · rcases List.mem_cons.mp hs with h' | h'
        · exact absurd (h' ▸ hsp) (fun h => hp h.symm)
        · exact ih _ p (Or.inr ⟨s, h', hsp⟩)

theorem alGet_foldRoutes_self (rs : List Route) :
    ∀ (m : List (String × Route)) (r : Route), r ∈ rs →
      rs.Pairwise (fun a b => a.path ≠ b.path) →
      alGet (rs.foldl (fun m r => alInsert m r.path r) m) r.path = some r := by
  induction rs with
  | nil => intro m r h; simp at h
  | cons r0 rs ih =>
    intro m r hmem hpw
    rcases List.pairwise_cons.mp hpw with ⟨h0, hpw'⟩
    rcases List.mem_cons.mp hmem with h | h
    · subst h
      rw [List.foldl_cons,
        alGet_foldRoutes_noKey rs _ r.path (fun s hs => Ne.symm (h0 s hs)),
        alGet_alInsert, if_pos rfl]
    · rw [List.foldl_cons]
      exact ih _ r h hpw'

/-! ### Concrete routes for the spec scenarios -/

def routeU : Route :=
  { id := "U", path := "/api/users", upstream := "http://user-service:8080",
    weight := 100, active := true, methods := [], timeout_ms := 30000, description := "" }

def routeC : Route :=
  { id := "C", path := "/api/*", upstream := "http://api-catchall:8080",
    weight := 100, active := true, methods := [], timeout_ms := 30000, description := "" }

def apiTable : RouterMap := build_router_map [routeU, routeC]

def dupA : Route :=
  { id := "A", path := "/dup", upstream := "http://a:1",
    weight := 100, active := true, methods := [], timeout_ms := 30000, description := "" }

def dupB : Route :=
  { id := "B", path := "/dup", upstream := "http://b:1",
    weight := 100, active := true, methods := [], timeout_ms := 30000, description := "" }

/-- C1 counterexample: the claim says `match("/api")` is `None` when no other
pattern matches it, but `path_matches` accepts a path equal to the wildcard
prefix itself (`path.len() == prefix.len()`), so the wildcard route is
returned for `/api` — both in the one-route table and in the spec's
exact+wildcard table. -/
theorem c1_counterexample :
    match_route "/api" (build_router_map [routeC]) = some routeC ∧
    match_route "/api" apiTable = some routeC ∧
    match_route "/api" (build_router_map [routeC]) ≠ none := by
  refine ⟨by decide, by decide, by decide⟩

/-- C1 (amended): in every router table whose only pattern matching the path
is the wildcard `/api/*`, `match` returns the wildcard route for `/api/x` and
`/api/x/y` — and also for `/api` itself, the wildcard prefix with no
following slash; on the spec's table `{/api/users → U, /api/* → C}`,
`match("/api/users") = U`, `match("/api/orders/1") = C`, and
`match("/api") = C` (not `None`). -/
theorem c1_wildcard_matching :
    (∀ (m : RouterMap) (r : Route) (path : String),
        path = "/api" ∨ path = "/api/x" ∨ path = "/api/x/y" →
        alGet m path = none →
        ("/api/*", r) ∈ m →
        (∀ kv ∈ m, path_matches path kv.1 = true → kv = ("/api/*", r)) →
        match_route path m = some r) ∧
    match_route "/api/users" apiTable = some routeU ∧
    match_route "/api/orders/1" apiTable = some routeC ∧
    match_route "/api/x" apiTable = some routeC ∧
    match_route "/api/x/y" apiTable = some routeC ∧
    match_route "/api" apiTable = some routeC := by
  refine ⟨?_, by decide, by decide, by decide, by decide, by decide⟩
  intro m r path hpath hexact hmem huniq
  have hmatch : path_matches path "/api/*" = true := by
    rcases hpath with h | h | h <;> subst h <;> decide
  exact match_route_unique path m "/api/*" r hexact hmem hmatch huniq

/-- Witness for `c1_wildcard_matching` at the singleton table `{/api/* → C}`. -/
theorem c1_wildcard_matching_witness :
    match_route "/api" [("/api/*", routeC)] = some routeC :=
  c1_wildcard_matching.1 [("/api/*", routeC)] routeC "/api" (Or.inl rfl)
    (by decide) (by decide) (by decide)

/-- C8 counterexample: with two active routes sharing one pattern, the later
route overwrites the earlier one in the table (`HashMap` collect), so the
earlier active route's pattern does *not* map to that route. -/
theorem c8_counterexample :
    alGet (build_router_map [dupA, dupB]) "/dup" = some dupB ∧
    dupA.active = true ∧ dupA ∈ [dupA, dupB] ∧ dupA.path = "/dup" ∧ dupB ≠ dupA := by
  refine ⟨by decide, by decide, by decide, by decide, by decide⟩

/-- C8 (amended): every entry of the built router table is an active route of
the input list keyed by its own pattern; every active route's pattern is
present in the table (mapping to the last active route with that pattern);
and when the active routes' patterns are pairwise distinct — as the data
model requires — every active route's pattern maps to that route itself. -/
theorem c8_router_table_active (routes : List Route) :
    (∀ (p : String) (r : Route), alGet (build_router_map routes) p = some r →
        r.active = true ∧ r ∈ routes ∧ r.path = p) ∧
    (∀ r ∈ routes, r.active = true →
        ∃ r', alGet (build_router_map routes) r.path = some r' ∧
          r'.active = true ∧ r' ∈ routes ∧ r'.path = r.path) ∧
    ((routes.filter (fun r => r.active)).Pairwise (fun a b => a.path ≠ b.path) →
        ∀ r ∈ routes, r.active = true →
          alGet (build_router_map routes) r.path = some r) := by
  have hentry : ∀ (p : String) (r : Route), alGet (build_router_map routes) p = some r →
      r.active = true ∧ r ∈ routes ∧ r.path = p := by
    intro p r h
    rcases alGet_foldRoutes _ _ _ _ h with ⟨hmem, hp⟩ | h'
    · rcases List.mem_filter.mp hmem with ⟨hr, ha⟩
      exact ⟨ha, hr, hp⟩
    · simp [alGet] at h'
  refine ⟨hentry, ?_, ?_⟩
  · intro r hr ha
    have hf : r ∈ routes.filter (fun r => r.active) := List.mem_filter.mpr ⟨hr, ha⟩
    rcases alGet_foldRoutes_some _ [] r.path (Or.inr ⟨r, hf, rfl⟩) with ⟨r', hr'⟩
    rcases hentry r.path r' hr' with ⟨ha', hm', hp'⟩
    exact ⟨r', hr', ha', hm', hp'⟩
  · intro hpw r hr ha
    exact alGet_foldRoutes_self _ [] r (List.mem_filter.mpr ⟨hr, ha⟩) hpw

/-- Witness for `c8_router_table_active`: the distinct-pattern clause at the
spec's two-route table puts `routeU` under its own pattern. -/
theorem c8_router_table_active_witness :
    alGet (build_router_map [routeU, routeC]) routeU.path = some routeU :=
  (c8_router_table_active [routeU, routeC]).2.2 (by decide) routeU (by decide) (by decide)

/-! ## Config store adapter (`surreal-config/src/schema.rs`)

The SurrealDB `routes` table is embedded as an association list keyed by
route id; `db.create` fails on an existing id, `db.update` on a missing one.
-/

inductive ConfigError where
  | InvalidRoute (reason : String)
  | RouteNotFound (id : String)
  | Database (message : String)
deriving DecidableEq, Repr

/-- `str::starts_with` on strings. -/
def strStartsWith (s p : String) : Bool := p.data.isPrefixOf s.data

/-- `validate_route` from `schema.rs`, error messages included. -/
def validate_route (route : Route) : Except ConfigError Unit :=
  if route.id.data.isEmpty then
    .error (.InvalidRoute "Route ID cannot be empty")
  else if route.path.data.isEmpty then
    .error (.InvalidRoute "Route path cannot be empty")
  else if !(strStartsWith route.path "/") then
    .error (.InvalidRoute "Route path must start with /")
  else if route.upstream.data.isEmpty then
    .error (.InvalidRoute "Upstream URL cannot be empty")
  else if !(strStartsWith route.upstream "http://" || strStartsWith route.upstream "https://") then
    .error (.InvalidRoute "Upstream must be a valid HTTP/HTTPS URL")
  else
    .ok ()

abbrev RouteStore : Type := List (String × Route)

/-- `create_route`: validate, then insert a fresh record. -/
def create_route (db : RouteStore) (route : Route) :
    Except ConfigError Route × RouteStore :=
  match validate_route route with
  | .error e => (.error e, db)
  | .ok _ =>
      match alGet db route.id with
      | some _ => (.error (.Database "Failed to create route"), db)
      | none => (.ok route, alInsert db route.id route)

/-- `update_route`: validate, then replace an existing record. -/
def update_route (db : RouteStore) (route : Route) :
    Except ConfigError Route × RouteStore :=
  match validate_route route with
  | .error e => (.error e, db)
  | .ok _ =>
      match alGet db route.id with
      | some _ => (.ok route, alInsert db route.id route)
      | none => (.error (.RouteNotFound route.id), db)

/-- The invalidity condition in the words of the claim: empty id, empty path
or path not beginning with `/`, or upstream without an `http://` or
`https://` scheme. -/
def routeInvalidSpec (r : Route) : Bool :=
  r.id.data.isEmpty || r.path.data.isEmpty || !(strStartsWith r.path "/") ||
    !(strStartsWith r.upstream "http://" || strStartsWith r.upstream "https://")

theorem validate_route_cases (r : Route) :
    validate_route r = .ok () ∨ ∃ reason, validate_route r = .error (.InvalidRoute reason) := by
  unfold validate_route
  repeat' split
  all_goals first
    | exact Or.inl rfl
    | exact Or.inr ⟨_, rfl⟩

theorem validate_route_invalid_iff (r : Route) :
    (∃ reason, validate_route r = .error (.InvalidRoute reason)) ↔
      routeInvalidSpec r = true := by
  constructor
  · rintro ⟨reason, h⟩
    unfold validate_route at h
    unfold routeInvalidSpec
    split at h
    · simp_all
    · split at h
      · simp_all
      · split at h
        · simp_all
        · split at h
          · rename_i h4
            have h5 : strStartsWith r.upstream "http://" = false := by
              simp only [List.isEmpty_iff] at h4
              simp [strStartsWith, h4, List.isPrefixOf]
            have h6 : strStartsWith r.upstream "https://" = false := by
              simp only [List.isEmpty_iff] at h4
              simp [strStartsWith, h4, List.isPrefixOf]
            simp_all
          · split at h
            · simp_all
            · simp_all
  · intro h
    unfold routeInvalidSpec at h
    unfold validate_route
    repeat' split
    all_goals first
      | exact ⟨_, rfl⟩
      | simp_all

/-- C7: `create_route` and `update_route` return a typed `InvalidRoute`
error and leave the store unchanged exactly when the route fails the
claim's validity conditions; a route satisfying them all is never rejected
by validation. -/
theorem c7_route_validation (db : RouteStore) (route : Route) :
    (((∃ reason, (create_route db route).1 = .error (.InvalidRoute reason)) ∧
        (create_route db route).2 = db) ↔ routeInvalidSpec route = true) ∧
    (((∃ reason, (update_route db route).1 = .error (.InvalidRoute reason)) ∧
        (update_route db route).2 = db) ↔ routeInvalidSpec route = true) := by
  rcases validate_route_cases route with hok | ⟨reason, herr⟩
  · have hinv : ¬ routeInvalidSpec route = true := by
      intro h
      rcases (validate_route_invalid_iff route).mpr h with ⟨reason, h'⟩
      rw [hok] at h'
      exact Except.noConfusion h'
    constructor
    · constructor
      · rintro ⟨⟨reason, h1⟩, _⟩
        unfold create_route at h1
        rw [hok] at h1
        rcases hget : alGet db route.id with _ | v <;> rw [hget] at h1 <;> simp at h1
      · intro h; exact absurd h hinv
    · constructor
      · rintro ⟨⟨reason, h1⟩, _⟩
        unfold update_route at h1
        rw [hok] at h1
        rcases hget : alGet db route.id with _ | v <;> rw [hget] at h1 <;> simp at h1
      · intro h; exact absurd h hinv
  · have hinv : routeInvalidSpec route = true :=
      (validate_route_invalid_iff route).mp ⟨reason, herr⟩
    constructor
    · constructor
      · intro _; exact hinv
      · intro _
        refine ⟨⟨reason, ?_⟩, ?_⟩ <;> unfold create_route <;> rw [herr]
    · constructor
      · intro _; exact hinv
      · intro _
        refine ⟨⟨reason, ?_⟩, ?_⟩ <;> unfold update_route <;> rw [herr]

def badRoute : Route :=
  { id := "X", path := "nope", upstream := "http://x:1",
    weight := 100, active := true, methods := [], timeout_ms := 30000, description := "" }

/-- Witness for `c7_route_validation`: a route whose path does not begin
with `/` is rejected with the store untouched. -/
theorem c7_route_validation_witness :
    routeInvalidSpec badRoute = true ∧ (create_route [] badRoute).2 = [] :=
  ⟨by decide, ((c7_route_validation [] badRoute).1.mpr (by decide)).2⟩

/-! ## Token-bucket rate limiter (`naseej-security/src/rate_limit.rs`)

The bucket's `f64` token count is embedded as an exact rational; the
`Instant` stored in `last_update` is replaced by passing each call the
elapsed seconds since the previous one. `as u64` casts of non-negative
values are `floor`/`ceil` composed with `Int.toNat`.
-/

structure RateLimitConfig where
  requests_per_window : Nat
  window_secs : Nat
  burst_size : Nat
  distributed : Bool
deriving DecidableEq, Repr

structure RateLimitResult where
  allowed : Bool
  remaining : Nat
  limit : Nat
  reset_after_ms : Nat
  retry_after_ms : Option Nat
deriving DecidableEq, Repr

structure TokenBucket where
  tokens : ℚ
  config : RateLimitConfig
deriving DecidableEq

def refill_rate (c : RateLimitConfig) : ℚ :=
  (c.requests_per_window : ℚ) / (c.window_secs : ℚ)

def max_tokens (c : RateLimitConfig) : ℚ :=
  (c.requests_per_window : ℚ) + (c.burst_size : ℚ)

/-- `TokenBucket::new`: a fresh bucket is full. -/
def TokenBucket.new (config : RateLimitConfig) : TokenBucket :=
  { tokens := max_tokens config, config := config }

/-- `TokenBucket::refill` with `elapsed` seconds since the last update. -/
def TokenBucket.refill (b : TokenBucket) (elapsed : ℚ) : TokenBucket :=
  { b with tokens := min (b.tokens + elapsed * refill_rate b.config) (max_tokens b.config) }

/-- `TokenBucket::try_consume`: refill, then either debit `tokens` or report
the retry delay. -/
def TokenBucket.try_consume (b : TokenBucket) (elapsed tokens : ℚ) :
    RateLimitResult × TokenBucket :=
  let b := b.refill elapsed
  if tokens ≤ b.tokens then
    let b' : TokenBucket := { b with tokens := b.tokens - tokens }
    let tokens_needed := max_tokens b.config - b'.tokens
    ({ allowed := true,
       remaining := ⌊b'.tokens⌋.toNat,
       limit := b.config.requests_per_window,
       reset_after_ms := ⌊(tokens_needed / refill_rate b.config) * 1000⌋.toNat,
       retry_after_ms := none }, b')
  else
    let tokens_needed := tokens - b.tokens
    ({ allowed := false,
       remaining := 0,
       limit := b.config.requests_per_window,
       reset_after_ms := b.config.window_secs * 1000,
       retry_after_ms := some ⌈(tokens_needed / refill_rate b.config) * 1000⌉.toNat }, b)

/-- A run of sequential cost-1 checks on one bucket, all at the same instant
(`elapsed = 0`), as in the spec's burst scenario. -/
def runChecks (b : TokenBucket) : Nat → List RateLimitResult
  | 0 => []
  | n + 1 =>
      let step := b.try_consume 0 1
      step.1 :: runChecks step.2 n

def burstCfg : RateLimitConfig :=
  { requests_per_window := 5, window_secs := 60, burst_size := 3, distributed := false }

/-- C3: `try_consume` refills to `min(tokens + elapsed·(r/w), r + b)`,
debits the cost and allows when the cost is covered, and otherwise denies
with `retry_after_ms = ceil((cost - tokens)/(r/w)·1000)`; with config
`{rpw 5, window 60 s, burst 3}`, 8 sequential cost-1 checks on a fresh
bucket are allowed and the 9th is denied with a positive retry delay. -/
theorem c3_token_bucket (b : TokenBucket) (elapsed cost : ℚ) :
    ((b.refill elapsed).tokens =
        min (b.tokens + elapsed * ((b.config.requests_per_window : ℚ) / (b.config.window_secs : ℚ)))
          ((b.config.requests_per_window : ℚ) + (b.config.burst_size : ℚ))) ∧
    (cost ≤ (b.refill elapsed).tokens →
        (b.try_consume elapsed cost).1.allowed = true ∧
        (b.try_consume elapsed cost).2.tokens = (b.refill elapsed).tokens - cost) ∧
    ((b.refill elapsed).tokens < cost →
        (b.try_consume elapsed cost).1.allowed = false ∧
        (b.try_consume elapsed cost).1.retry_after_ms =
          some ⌈((cost - (b.refill elapsed).tokens) /
              ((b.config.requests_per_window : ℚ) / (b.config.window_secs : ℚ))) * 1000⌉.toNat) ∧
    ((runChecks (TokenBucket.new burstCfg) 9).map (fun r => r.allowed) =
        [true, true, true, true, true, true, true, true, false]) ∧
    ((runChecks (TokenBucket.new burstCfg) 9).map (fun r => r.retry_after_ms)).getLast? =
        some (some 12000) ∧ 0 < 12000 := by
  refine ⟨rfl, ?_, ?_, ?_, ?_, by norm_num⟩
  · intro h
    refine ⟨?_, ?_⟩ <;> simp only [TokenBucket.try_consume, if_pos h]
  · intro h
    constructor
    · simp only [TokenBucket.try_consume, if_neg (not_le.mpr h)]
    · simp only [TokenBucket.try_consume, if_neg (not_le.mpr h)]
      rfl
  · norm_num [runChecks, TokenBucket.try_consume, TokenBucket.refill, TokenBucket.new,
      burstCfg, refill_rate, max_tokens, min_def]
  · norm_num [runChecks, TokenBucket.try_consume, TokenBucket.refill, TokenBucket.new,
      burstCfg, refill_rate, max_tokens, min_def]
    decide

/-- Witness for `c3_token_bucket`: the first check on a fresh burst bucket
is covered and allowed. -/
theorem c3_token_bucket_witness :
    (1 : ℚ) ≤ ((TokenBucket.new burstCfg).refill 0).tokens ∧
    ((TokenBucket.new burstCfg).try_consume 0 1).1.allowed = true := by
  have h1 : (1 : ℚ) ≤ ((TokenBucket.new burstCfg).refill 0).tokens := by
    norm_num [TokenBucket.refill, TokenBucket.new, burstCfg, refill_rate, max_tokens, min_def]
  exact ⟨h1, ((c3_token_bucket (TokenBucket.new burstCfg) 0 1).2.1 h1).1⟩

/-! ## JWT validator (`naseej-security/src/auth.rs`)

`jsonwebtoken::decode` is split into an abstract `decodeOk` field (parsing,
signature, issuer/audience policy — all time-independent) and the explicit
expiry check that the library performs against the current time with its
default 60-second leeway.  The `moka` cache keyed by the raw token string is
an association list of claims plus insertion time; an entry is live while
`now < inserted + cache_ttl_secs`.  `validate` threads the validator state
and takes the current Unix time explicitly.
-/

inductive AuthError where
  | TokenMissing
  | TokenExpired
  | TokenInvalid (message : String)
  | KeyFetchFailed (message : String)
  | InsufficientPermissions
deriving DecidableEq, Repr

structure Claims where
  sub : String
  iss : Option String
  aud : Option String
  exp : Nat
  iat : Option Nat
  nbf : Option Nat
deriving DecidableEq, Repr

structure AuthConfig where
  enabled : Bool
  issuers : List String
  audiences : List String
  algorithm : String
  secret_or_jwks : String
  cache_ttl_secs : Nat
  cache_max_size : Nat

structure JwtValidator where
  config : AuthConfig
  decodeOk : String → Option Claims
  cache : List (String × Claims × Nat)

/-- `jsonwebtoken`'s default validation leeway in seconds. -/
def jwtLeeway : Nat := 60

/-- The dummy claims returned when authentication is disabled
(`exp: u64::MAX`). -/
def anonymousClaims : Claims :=
  { sub := "anonymous", iss := none, aud := none, exp := 2 ^ 64 - 1,
    iat := none, nbf := none }

/-- Cache lookup: a hit while the TTL window is open. -/
def cacheGet (v : JwtValidator) (now : Nat) (token : String) : Option Claims :=
  match alGet v.cache token with
  | some (claims, inserted) =>
      if now < inserted + v.config.cache_ttl_secs then some claims else none
  | none => none

/-- `JwtValidator::validate` at Unix time `now`. -/
def JwtValidator.validate (v : JwtValidator) (now : Nat) (token : String) :
    Except AuthError Claims × JwtValidator :=
  if !v.config.enabled then (.ok anonymousClaims, v)
  else
    match cacheGet v now token with
    | some claims => (.ok claims, v)
    | none =>
        match v.decodeOk token with
        | none => (.error (.TokenInvalid "invalid token"), v)
        | some claims =>
            if claims.exp + jwtLeeway < now then (.error .TokenExpired, v)
            else (.ok claims, { v with cache := alInsert v.cache token (claims, now) })

deriving instance DecidableEq for Except

def tokClaims : Claims :=
  { sub := "user123", iss := none, aud := none, exp := 1000, iat := none, nbf := none }

def jwtV0 : JwtValidator :=
  { config :=
      { enabled := true, issuers := [], audiences := [], algorithm := "HS256",
        secret_or_jwks := "secret", cache_ttl_secs := 300, cache_max_size := 10000 },
    decodeOk := fun t => if t = "tok" then some tokClaims else none,
    cache := [] }

/-- C2 counterexample: a token with `exp = 1000` is validated and cached at
`now = 900`; revalidating at `now = 1100` — after the token's expiry (even
past the 60 s leeway) but inside the 300 s cache TTL — returns the cached
claims as `Ok` instead of the claimed `TokenExpired`, while a cold validator
does report `TokenExpired` at that time. -/
theorem c2_counterexample :
    ((jwtV0.validate 900 "tok").2.validate 1100 "tok").1 = .ok tokClaims ∧
    tokClaims.exp + jwtLeeway < 1100 ∧
    (jwtV0.validate 1100 "tok").1 = .error .TokenExpired := by
  refine ⟨by decide, by decide, by decide⟩

/-- C2 (amended): a cache hit returns the cached claims subject only to the
cache TTL — the token's own `exp` is not re-checked — and the expiry check
(against `exp` plus the 60 s leeway) happens only on the decode path taken
on a cache miss.  So an expired token still inside the cache TTL yields its
claims, not `TokenExpired`. -/
theorem c2_cache_ttl_only (v : JwtValidator) (now : Nat) (token : String)
    (claims : Claims) :
    (v.config.enabled = true →
      ∀ inserted : Nat, alGet v.cache token = some (claims, inserted) →
      now < inserted + v.config.cache_ttl_secs →
      (v.validate now token).1 = .ok claims) ∧
    (v.config.enabled = true →
      cacheGet v now token = none →
      v.decodeOk token = some claims →
      claims.exp + jwtLeeway < now →
      (v.validate now token).1 = .error .TokenExpired) := by
  constructor
  · intro hen inserted hget httl
    have hhit : cacheGet v now token = some claims := by
      unfold cacheGet
      rw [hget]
      simp [httl]
    unfold JwtValidator.validate
    rw [hen]
    simp only [Bool.not_true, Bool.false_eq_true, if_false, hhit]
  · intro hen hmiss hdec hexp
    unfold JwtValidator.validate
    rw [hen]
    simp only [Bool.not_true, Bool.false_eq_true, if_false, hmiss, hdec, if_pos hexp]

/-- Witness for `c2_cache_ttl_only`: the validator that has just cached the
claims at time 900 returns them from cache at time 1100. -/
theorem c2_cache_ttl_only_witness :
    ((jwtV0.validate 900 "tok").2.validate 1100 "tok").1 = .ok tokClaims :=
  (c2_cache_ttl_only (jwtV0.validate 900 "tok").2 1100 "tok" tokClaims).1
    (by decide) 900 (by decide) (by decide)

/-! ## MQTT topic matching (`protocol-adapters/src/mqtt/bridge.rs`) -/

/-- `str::split('/')`: splitting an empty string yields one empty segment. -/
def splitSlash (s : List Char) : List (List Char) :=
  match s with
  | [] => [[]]
  | c :: rest =>
      let r := splitSlash rest
      if c = '/' then [] :: r
      else
        match r with
        | h :: t => (c :: h) :: t
        | [] => [[c]]

/-- The `while p_idx < … && t_idx < …` loop of `topic_matches`, followed by
the both-exhausted check. -/
def topicMatchesGo : List (List Char) → List (List Char) → Bool
  | p :: ps, t :: ts =>
      if p = ['#'] then true
      else if p = ['+'] then topicMatchesGo ps ts
      else if p = t then topicMatchesGo ps ts
      else false
  | ps, ts => ps.isEmpty && ts.isEmpty

/-- `topic_matches` from `bridge.rs`. -/
def topic_matches (pattern topic : String) : Bool :=
  topicMatchesGo (splitSlash pattern.data) (splitSlash topic.data)

/-- C5: `+` matches exactly one topic level and a trailing `#` matches one
or more trailing levels — but, contrary to the claim and to the MQTT
wildcard semantics (`#` also matches the parent level), `sensors/#` does
*not* match the bare topic `sensors`: the `#` arm of the loop is only
reached while topic levels remain, and the final check then demands the
pattern be exhausted. -/
theorem c5_topic_hash_zero_levels :
    topic_matches "sensors/#" "sensors" = false ∧
    topic_matches "sensors/#" "sensors/a" = true ∧
    topic_matches "sensors/#" "sensors/a/b" = true ∧
    topic_matches "sensors/+/temp" "sensors/room1/temp" = true ∧
    topic_matches "sensors/+/temp" "sensors/temp" = false ∧
    topic_matches "sensors/+" "sensors" = false ∧
    topic_matches "sensors/+" "sensors/a/b" = false := by
  refine ⟨by decide, by decide, by decide, by decide, by decide, by decide, by decide⟩

/-! ## Listener supervisor (`protocol-adapters/src/supervisor.rs`)

The supervisor's `HashMap<String, ListenerHandle>` is an association list
from listener id to the `ListenerConfig` the listener was started with
(`cancel_token` and `join_handle` carry no reconcile-relevant state).  The
`expected` map is a `std::collections::HashMap` whose iteration order is
arbitrary, so `reconcile` takes that order as an explicit `order` argument:
a faithful run is any call whose `order` is a permutation of the enabled
listeners (ids are unique within a config generation per the data model,
so those are exactly the entries of `expected`), and the theorems below
quantify over every such permutation.  The stop loop iterates the running
map's keys — also arbitrary; the states used below hold at most one
listener, where that order is unique.
-/

inductive ProtocolType where
  | Http
  | Mqtt
  | Grpc
  | Soap
deriving DecidableEq, Repr

structure ListenerConfig where
  id : String
  name : String
  protocol : ProtocolType
  port : Nat
  host : String
  enabled : Bool
  config : String
  drain_timeout_secs : Nat
deriving DecidableEq, Repr

structure ServiceConfig where
  listeners : List ListenerConfig
deriving DecidableEq, Repr

inductive ListenerEvent where
  | Started (id : String) (protocol : ProtocolType) (port : Nat)
  | Stopped (id : String)
  | Restarted (id : String)
  | Error (id : String) (message : String)
deriving DecidableEq, Repr

abbrev ListenerState : Type := List (String × ListenerConfig)

/-- `stop_listener`: remove the handle and emit `Stopped` (only if it was
running). -/
def stop_listener (st : ListenerState) (id : String) :
    ListenerState × List ListenerEvent :=
  match alGet st id with
  | some _ => (st.filter (fun kv => kv.1 != id), [.Stopped id])
  | none => (st, [])

/-- `start_listener`: insert the handle and emit `Started`. -/
def start_listener (st : ListenerState) (c : ListenerConfig) :
    ListenerState × List ListenerEvent :=
  (alInsert st c.id c, [.Started c.id c.protocol c.port])

/-- `ListenerManager::reconcile`: stop listeners absent from the enabled
set, then — in the arbitrary order `order` in which the `expected`
`HashMap` yields its entries — start new listeners and
stop-start-`Restarted` those whose spec changed.  The `contains_key` test
of the stop phase is order-independent and uses the enabled set itself. -/
def reconcile (st : ListenerState) (cfg : ServiceConfig)
    (order : List ListenerConfig) : ListenerState × List ListenerEvent :=
  let expected := cfg.listeners.filter (fun l => l.enabled)
  let to_stop := (st.map (fun kv => kv.1)).filter
    (fun id => !(expected.any (fun l => l.id == id)))
  let stopped := to_stop.foldl
    (fun (acc : ListenerState × List ListenerEvent) id =>
      let s := stop_listener acc.1 id
      (s.1, acc.2 ++ s.2)) (st, [])
  order.foldl
    (fun (acc : ListenerState × List ListenerEvent) l =>
      match alGet acc.1 l.id with
      | some handleCfg =>
          if handleCfg ≠ l then
            let sA := stop_listener acc.1 l.id
            let sB := start_listener sA.1 l
            (sB.1, acc.2 ++ sA.2 ++ sB.2 ++ [.Restarted l.id])
          else acc
      | none =>
          let sB := start_listener acc.1 l
          (sB.1, acc.2 ++ sB.2)) stopped

/-- The listener an event is about. -/
def eventListenerId : ListenerEvent → String
  | .Started id _ _ => id
  | .Stopped id => id
  | .Restarted id => id
  | .Error id _ => id

/-- A list permuting a two-element list is one of its two arrangements. -/
theorem perm_pair_cases {α : Type} (a b : α) :
    ∀ l : List α, l.Perm [a, b] → l = [a, b] ∨ l = [b, a] := by
  intro l h
  have hlen : l.length = 2 := by simpa using h.length_eq
  rcases l with _ | ⟨x, _ | ⟨y, _ | ⟨z, t⟩⟩⟩
  · simp at hlen
  · simp at hlen
  · have hx : x ∈ ([a, b] : List α) := h.subset (by simp)
    have hx' : x = a ∨ x = b := by simpa using hx
    rcases hx' with hxa | hxb
    · have h2 : ([y] : List α).Perm [b] := by
        rw [hxa] at h
        exact h.cons_inv
      have hy : y ∈ ([b] : List α) := h2.subset (by simp)
      simp at hy
      exact Or.inl (by rw [hxa, hy])
    · have h2 : ([y] : List α).Perm [a] := by
        rw [hxb] at h
        exact (h.trans (List.Perm.swap b a [])).cons_inv
      have hy : y ∈ ([a] : List α) := h2.subset (by simp)
      simp at hy
      exact Or.inr (by rw [hxb, hy])
  · simp at hlen

def l1a : ListenerConfig :=
  { id := "L1", name := "", protocol := .Http, port := 8080, host := "0.0.0.0",
    enabled := true, config := "", drain_timeout_secs := 30 }

def l1b : ListenerConfig :=
  { id := "L1", name := "", protocol := .Http, port := 8081, host := "0.0.0.0",
    enabled := true, config := "", drain_timeout_secs := 30 }

def l2 : ListenerConfig :=
  { id := "L2", name := "", protocol := .Mqtt, port := 1883, host := "0.0.0.0",
    enabled := true, config := "", drain_timeout_secs := 30 }

/-- C6 counterexample: on the spec's reconcile scenario, whichever of the
two possible `HashMap` iteration orders the run takes, the emitted events
are not only `Restarted(L1)`, `Started(L2)` and the restart's inner
`Stopped(L1)` — the restart's inner start also emits `Started(L1)`. -/
theorem c6_counterexample :
    ListenerEvent.Started "L1" ProtocolType.Http 8081 ∈
      (reconcile [("L1", l1a)] ⟨[l1b, l2]⟩ [l1b, l2]).2 ∧
    ListenerEvent.Started "L1" ProtocolType.Http 8081 ∈
      (reconcile [("L1", l1a)] ⟨[l1b, l2]⟩ [l2, l1b]).2 ∧
    ¬ (∀ ev ∈ (reconcile [("L1", l1a)] ⟨[l1b, l2]⟩ [l1b, l2]).2,
        ev = .Restarted "L1" ∨ ev = .Started "L2" ProtocolType.Mqtt 1883 ∨
        ev = .Stopped "L1") ∧
    ¬ (∀ ev ∈ (reconcile [("L1", l1a)] ⟨[l1b, l2]⟩ [l2, l1b]).2,
        ev = .Restarted "L1" ∨ ev = .Started "L2" ProtocolType.Mqtt 1883 ∨
        ev = .Stopped "L1") := by
  refine ⟨by decide, by decide, by decide, by decide⟩

/-- C6 (amended): starting from `{L1@8080}`, reconciling to
`{L1@8081, L2@1883}` stops then starts L1 and starts L2, for *every*
iteration order of the `expected` map: the emitted events are, as a
multiset, exactly the restart's inner `Stopped(L1)` and `Started(L1)`,
`Restarted(L1)`, and `Started(L2)`; the L1 events occur in the relative
order stop, start, restarted, while their interleaving with `Started(L2)`
depends on the map's order; afterwards exactly L1 and L2 run, with their
new specs. -/
theorem c6_reconcile_restart :
    reconcile [] ⟨[l1a]⟩ [l1a] = ([("L1", l1a)], [.Started "L1" .Http 8080]) ∧
    (∀ order : List ListenerConfig, order.Perm [l1b, l2] →
      (reconcile [("L1", l1a)] ⟨[l1b, l2]⟩ order).2.Perm
        [.Stopped "L1", .Started "L1" .Http 8081, .Restarted "L1",
         .Started "L2" .Mqtt 1883] ∧
      (reconcile [("L1", l1a)] ⟨[l1b, l2]⟩ order).2.filter
          (fun ev => eventListenerId ev == "L1") =
        [.Stopped "L1", .Started "L1" .Http 8081, .Restarted "L1"] ∧
      (reconcile [("L1", l1a)] ⟨[l1b, l2]⟩ order).2.filter
          (fun ev => eventListenerId ev == "L2") =
        [.Started "L2" .Mqtt 1883] ∧
      alGet (reconcile [("L1", l1a)] ⟨[l1b, l2]⟩ order).1 "L1" = some l1b ∧
      alGet (reconcile [("L1", l1a)] ⟨[l1b, l2]⟩ order).1 "L2" = some l2 ∧
      (reconcile [("L1", l1a)] ⟨[l1b, l2]⟩ order).1.length = 2) := by
  refine ⟨by decide, ?_⟩
  intro order hperm
  rcases perm_pair_cases l1b l2 order hperm with rfl | rfl
  · refine ⟨by decide, by decide, by decide, by decide, by decide, by decide⟩
  · refine ⟨by decide, by decide, by decide, by decide, by decide, by decide⟩

/-- Witness for `c6_reconcile_restart` at the iteration order `[l1b, l2]`. -/
theorem c6_reconcile_restart_witness :
    (reconcile [("L1", l1a)] ⟨[l1b, l2]⟩ [l1b, l2]).2.Perm
      [.Stopped "L1", .Started "L1" .Http 8081, .Restarted "L1",
       .Started "L2" .Mqtt 1883] :=
  (c6_reconcile_restart.2 [l1b, l2] (List.Perm.refl _)).1

/-! ## Rhai transform engine (`cognitive-core/src/rhai_engine.rs`)

The external Rhai library is abstracted: `compile` stands for
`rhai::Engine::compile` on this engine instance (a fixed function of the
script text), `runAstWithScope` for `run_ast_with_scope` plus the scope
extraction of `execute_ast` — which, in the source, falls back to the old
context values on conversion failure and therefore only ever fails with an
execution error.  `payload` is the JSON document as text, opaque here.
-/

/-- Substring containment (`str::contains`). -/
def containsSeq (hay needle : List Char) : Bool :=
  match hay with
  | [] => needle.isEmpty
  | _ :: rest => needle.isPrefixOf hay || containsSeq rest needle

inductive RhaiError where
  | CompileError (message : String)
  | ExecutionError (message : String)
  | ConversionError (message : String)
  | ValidationError (message : String)
deriving DecidableEq, Repr

structure ValidationResult where
  valid : Bool
  errors : List String
  warnings : List String
deriving DecidableEq, Repr

structure TransformContext where
  payload : String
  metadata : List (String × String)
  protocol : String
  destination : String
deriving DecidableEq, Repr

structure RhaiEngine (AST : Type) where
  compile : String → Except String AST
  runAstWithScope : AST → TransformContext → Except String TransformContext

/-- `RhaiEngine::validate`: warn on `std::`, compile, collect diagnostics. -/
def RhaiEngine.validate {AST : Type} (e : RhaiEngine AST) (script : String) :
    ValidationResult :=
  let warnings :=
    if containsSeq script.data "std::".data then
      ["Script contains std:: references which may not be available"]
    else []
  let errors :=
    match e.compile script with
    | .ok _ => []
    | .error msg => ["Compilation error: " ++ msg]
  { valid := errors.isEmpty, errors := errors, warnings := warnings }

/-- `RhaiEngine::execute_ast`: run failures are execution errors. -/
def RhaiEngine.execute_ast {AST : Type} (e : RhaiEngine AST) (ast : AST)
    (ctx : TransformContext) : Except RhaiError TransformContext :=
  match e.runAstWithScope ast ctx with
  | .error msg => .error (.ExecutionError msg)
  | .ok ctx' => .ok ctx'

/-- `RhaiEngine::execute`: compile, then run. -/
def RhaiEngine.execute {AST : Type} (e : RhaiEngine AST) (script : String)
    (ctx : TransformContext) : Except RhaiError TransformContext :=
  match e.compile script with
  | .error msg => .error (.CompileError msg)
  | .ok ast => e.execute_ast ast ctx

/-- The post-compilation path never produces a compile-error classification. -/
theorem execute_ast_ne_compile {AST : Type} (e : RhaiEngine AST) (ast : AST)
    (ctx : TransformContext) (msg : String) :
    e.execute_ast ast ctx ≠ .error (.CompileError msg) := by
  cases hrun : e.runAstWithScope ast ctx <;> simp [RhaiEngine.execute_ast, hrun]

/-- C9: `validate` reports a compile error — `valid == false` with a
compilation error listed — exactly when `execute` fails with the
compile-error classification on every context: both run the same compiler
on the script, and the post-compilation path can only fail with execution
errors, never compile errors. -/
theorem c9_validate_execute_agree {AST : Type} (e : RhaiEngine AST) (script : String) :
    ((e.validate script).valid = false ∧ (e.validate script).errors ≠ []) ↔
      (∀ ctx : TransformContext, ∃ msg, e.execute script ctx = .error (.CompileError msg)) := by
  constructor
  · intro ⟨hv, _⟩ ctx
    unfold RhaiEngine.validate at hv
    unfold RhaiEngine.execute
    rcases hc : e.compile script with msg | ast
    · exact ⟨msg, rfl⟩
    · rw [hc] at hv
      simp at hv
  · intro h
    rcases h ⟨"", [], "", ""⟩ with ⟨msg, hex⟩
    unfold RhaiEngine.execute at hex
    rcases hc : e.compile script with msg' | ast
    · unfold RhaiEngine.validate
      rw [hc]
      simp
    · rw [hc] at hex
      exact absurd hex (execute_ast_ne_compile e ast _ msg)

/-- A concrete engine over a one-constructor AST whose compiler rejects
exactly the script `"]"`. -/
def rhaiBracket : RhaiEngine Unit :=
  { compile := fun s => if s = "]" then .error "unexpected token" else .ok (),
    runAstWithScope := fun _ ctx => .ok ctx }

/-- Witness for `c9_validate_execute_agree`: the rejected script fails
`execute` with a compile error on a concrete context. -/
theorem c9_validate_execute_agree_witness :
    ∃ msg, rhaiBracket.execute "]" ⟨"", [], "", ""⟩ = .error (.CompileError msg) :=
  ((c9_validate_execute_agree rhaiBracket "]").mp (by decide)) ⟨"", [], "", ""⟩

/-! ## WAF (`naseej-security/src/waf.rs`)

The four built-in `RegexSet`s are translated pattern by pattern into
decidable matchers over character lists (the rules and the scenario inputs
are ASCII, so `(?i)` is ASCII case folding, `\b` the ASCII word boundary,
and `.` any character except `\n`).  User-supplied custom patterns are
arbitrary regexes and stay an abstract matcher field.  Rust's
`&payload[..max_body_size]` slice panics when the byte index is not a char
boundary; `scan` therefore returns an `Option`, `none` standing for that
panic. `scan_time_us` is wall-clock and is omitted.
-/

/-- ASCII `\w`: letters, digits, underscore. -/
def isWordChar (c : Char) : Bool := c.isAlphanum || c == '_'

def lowerStr (s : List Char) : List Char := s.map Char.toLower

/-- `\bw\b` anchored at the head of `hay`; `prev` says whether the character
before `hay` is a word character. -/
def matchWordAt (prev : Bool) (hay w : List Char) : Bool :=
  !prev && w.isPrefixOf hay &&
    (match hay.drop w.length with
     | [] => true
     | c :: _ => !isWordChar c)

def containsWordAux (w : List Char) : Bool → List Char → Bool
  | _, [] => false
  | prev, c :: rest =>
      matchWordAt prev (c :: rest) w || containsWordAux w (isWordChar c) rest

/-- Unanchored `\bw\b`. -/
def containsWord (hay w : List Char) : Bool := containsWordAux w false hay

/-- Try `f` on every suffix of the haystack. -/
def anySuffix (f : List Char → Bool) : List Char → Bool
  | [] => f []
  | c :: rest => f (c :: rest) || anySuffix f rest

/-- `\b(from|into|where|set)\b` reachable through `.*` (no newline). -/
def sqlAfterAux (ws : List (List Char)) : Bool → List Char → Bool
  | _, [] => false
  | prev, c :: rest =>
      ws.any (fun w => matchWordAt prev (c :: rest) w) ||
      (!(c == '\n') && sqlAfterAux ws (isWordChar c) rest)

/-- `(?i)\b(select|insert|update|delete|drop|union)\b.*\b(from|into|where|set)\b`. -/
def sqlP1Aux (ws1 ws2 : List (List Char)) : Bool → List Char → Bool
  | _, [] => false
  | prev, c :: rest =>
      ws1.any (fun w =>
        matchWordAt prev (c :: rest) w && sqlAfterAux ws2 true ((c :: rest).drop w.length)) ||
      sqlP1Aux ws1 ws2 (isWordChar c) rest

/-- `\s+\d+\s*=\s*\d+`, anchored at the head of `l`. -/
def sqlP3Tail (l : List Char) : Bool :=
  match l with
  | [] => false
  | c :: rest =>
      c.isWhitespace &&
      (match rest.dropWhile Char.isWhitespace with
       | [] => false
       | d :: rest2 =>
           d.isDigit &&
           (match (rest2.dropWhile Char.isDigit).dropWhile Char.isWhitespace with
            | '=' :: rest3 =>
                (match rest3.dropWhile Char.isWhitespace with
                 | e :: _ => e.isDigit
                 | [] => false)
            | _ => false))

/-- `(?i)\b(or|and)\b\s+\d+\s*=\s*\d+`. -/
def sqlP3Aux : Bool → List Char → Bool
  | _, [] => false
  | prev, c :: rest =>
      (["or".data, "and".data].any fun w =>
        matchWordAt prev (c :: rest) w && sqlP3Tail ((c :: rest).drop w.length)) ||
      sqlP3Aux (isWordChar c) rest

/-- `(?i)union\s+(all\s+)?select`, anchored at the head of `l`. -/
def sqlP4At (l : List Char) : Bool :=
  "union".data.isPrefixOf l &&
  (match l.drop 5 with
   | [] => false
   | c :: rest =>
       c.isWhitespace &&
       (let l2 := rest.dropWhile Char.isWhitespace
        "select".data.isPrefixOf l2 ||
        ("all".data.isPrefixOf l2 &&
         (match l2.drop 3 with
          | [] => false
          | d :: rest2 =>
              d.isWhitespace && "select".data.isPrefixOf (rest2.dropWhile Char.isWhitespace)))))

/-- The `sql_injection` `RegexSet` (`is_match` = any of the four patterns). -/
def sqlInjectionMatch (content : List Char) : Bool :=
  let h := lowerStr content
  sqlP1Aux ["select".data, "insert".data, "update".data, "delete".data, "drop".data, "union".data]
      ["from".data, "into".data, "where".data, "set".data] false h ||
  (containsSeq h ['-', '-'] || containsSeq h ['#'] ||
    containsSeq h ['/', '*'] || containsSeq h ['*', '/']) ||
  sqlP3Aux false h ||
  anySuffix sqlP4At h

/-- `w` then `\s*` then the single character `target`, anchored. -/
def seqThenChar (w : List Char) (target : Char) (l : List Char) : Bool :=
  w.isPrefixOf l &&
  (match (l.drop w.length).dropWhile Char.isWhitespace with
   | c :: _ => c == target
   | [] => false)

/-- The `xss` `RegexSet`: `<script`, `javascript\s*:`,
`on(load|error|click)\s*=`, `eval\s*\(` (all `(?i)`). -/
def xssMatch (content : List Char) : Bool :=
  let h := lowerStr content
  containsSeq h "<script".data ||
  anySuffix (seqThenChar "javascript".data ':') h ||
  anySuffix (fun l =>
    ["onload".data, "onerror".data, "onclick".data].any fun w => seqThenChar w '=' l) h ||
  anySuffix (seqThenChar "eval".data '(') h

/-- The `path_traversal` `RegexSet`: `../` or `..\`, `/etc/passwd`,
`%2e%2e%2f`. -/
def pathTraversalMatch (content : List Char) : Bool :=
  let h := lowerStr content
  containsSeq h "../".data || containsSeq h "..\\".data ||
  containsSeq h "/etc/passwd".data || containsSeq h "%2e%2e%2f".data

/-- The `command_injection` `RegexSet`: shell metacharacters,
`\b(cat|ls|whoami|id)\b`, `/bin/(sh|bash)`. -/
def commandInjectionMatch (content : List Char) : Bool :=
  let h := lowerStr content
  (h.any (fun c => c == '|' || c == ';') || containsSeq h "$(".data ||
    h.any (fun c => c == Char.ofNat 96)) ||
  (["cat".data, "ls".data, "whoami".data, "id".data].any fun w => containsWord h w) ||
  (containsSeq h "/bin/sh".data || containsSeq h "/bin/bash".data)

inductive WafMode where
  | Block
  | DetectOnly
deriving DecidableEq, Repr

inductive Severity where
  | Low
  | Medium
  | High
  | Critical
deriving DecidableEq, Repr

structure CustomPattern where
  id : String
  pattern : String
  category : String
  severity : Severity
deriving DecidableEq, Repr

structure WafConfig where
  enabled : Bool
  mode : WafMode
  max_body_size : Nat
  custom_patterns : List CustomPattern
deriving Repr

structure WafResult where
  allowed : Bool
  triggered_rule : Option String
  category : Option String
deriving DecidableEq, Repr

structure WafEngine where
  config : WafConfig
  sql_injection : List Char → Bool
  xss : List Char → Bool
  path_traversal : List Char → Bool
  command_injection : List Char → Bool
  custom : Option (List Char → Bool)

/-- `WafEngine::check_patterns`: the five groups in order, first match
wins. -/
def check_patterns (e : WafEngine) (content : List Char) : Option (String × String) :=
  if e.sql_injection content then some ("SQL-1", "SQL Injection")
  else if e.xss content then some ("XSS-1", "Cross-Site Scripting")
  else if e.path_traversal content then some ("PATH-1", "Path Traversal")
  else if e.command_injection content then some ("CMD-1", "Command Injection")
  else
    match e.custom with
    | some c =>
        if c content then
          match e.config.custom_patterns.head? with
          | some p => some (p.id, p.category)
          | none => none
        else none
    | none => none

/-- UTF-8 byte length of a string (`str::len`). -/
def utf8Len (s : List Char) : Nat := (s.map Char.utf8Size).sum

/-- `&s[..n]`: the prefix holding exactly `n` bytes; `none` when `n` falls
inside a multi-byte character or past the end (a Rust panic). -/
def byteTake : List Char → Nat → Option (List Char)
  | _, 0 => some []
  | [], _ + 1 => none
  | c :: rest, n + 1 =>
      if c.utf8Size ≤ n + 1 then (byteTake rest (n + 1 - c.utf8Size)).map (fun l => c :: l)
      else none

/-- The part of `WafEngine::scan` after the size cap: run `check_patterns`
and build the result. -/
def scanContent (e : WafEngine) (content : List Char) : WafResult :=
  match check_patterns e content with
  | some (rule_id, category) =>
      { allowed := decide (e.config.mode = WafMode.DetectOnly),
        triggered_rule := some rule_id, category := some category }
  | none => { allowed := true, triggered_rule := none, category := none }

/-- `WafEngine::scan`; `none` models the slice panic. -/
def scan (e : WafEngine) (payload : List Char) : Option WafResult :=
  if !e.config.enabled then
    some { allowed := true, triggered_rule := none, category := none }
  else
    (if utf8Len payload > e.config.max_body_size then
        byteTake payload e.config.max_body_size else some payload).map (scanContent e)

/-- `WafEngine::new` on a custom-pattern-free config: the four OWASP-inspired
groups and no fifth group. -/
def defaultWafEngine (mode : WafMode) : WafEngine :=
  { config := { enabled := true, mode := mode, max_body_size := 1024 * 1024,
                custom_patterns := [] },
    sql_injection := sqlInjectionMatch,
    xss := xssMatch,
    path_traversal := pathTraversalMatch,
    command_injection := commandInjectionMatch,
    custom := none }

/-- C4: `check_patterns` tries the groups in the fixed order SQL injection,
XSS, path traversal, command injection, custom, and stops at the first
match; a produced `scan` result carries the first matching group's rule id
and category and is allowed exactly in `DetectOnly` mode (or when nothing
matched); the SQL-injection scenario is blocked in `Block` mode, flagged
but allowed in `DetectOnly` mode, and `"Hello, world"` passes. -/
theorem c4_waf_scan_order (e : WafEngine) (payload content : List Char) :
    (e.sql_injection content = true →
        check_patterns e content = some ("SQL-1", "SQL Injection")) ∧
    (e.sql_injection content = false → e.xss content = true →
        check_patterns e content = some ("XSS-1", "Cross-Site Scripting")) ∧
    (e.sql_injection content = false → e.xss content = false →
        e.path_traversal content = true →
        check_patterns e content = some ("PATH-1", "Path Traversal")) ∧
    (e.sql_injection content = false → e.xss content = false →
        e.path_traversal content = false → e.command_injection content = true →
        check_patterns e content = some ("CMD-1", "Command Injection")) ∧
    (∀ c p, e.sql_injection content = false → e.xss content = false →
        e.path_traversal content = false → e.command_injection content = false →
        e.custom = some c → c content = true →
        e.config.custom_patterns.head? = some p →
        check_patterns e content = some (p.id, p.category)) ∧
    (∀ r, e.config.enabled = true →
        (if utf8Len payload > e.config.max_body_size then
            byteTake payload e.config.max_body_size else some payload) = some content →
        scan e payload = some r →
        r.triggered_rule = (check_patterns e content).map (fun x => x.1) ∧
        r.category = (check_patterns e content).map (fun x => x.2) ∧
        r.allowed = ((check_patterns e content).isNone ||
          decide (e.config.mode = WafMode.DetectOnly))) ∧
    scan (defaultWafEngine .Block) "SELECT id FROM t WHERE x=1 OR 1=1".data =
      some { allowed := false, triggered_rule := some "SQL-1",
             category := some "SQL Injection" } ∧
    scan (defaultWafEngine .DetectOnly) "SELECT id FROM t WHERE x=1 OR 1=1".data =
      some { allowed := true, triggered_rule := some "SQL-1",
             category := some "SQL Injection" } ∧
    scan (defaultWafEngine .Block) "Hello, world".data =
      some { allowed := true, triggered_rule := none, category := none } := by
  refine ⟨?_, ?_, ?_, ?_, ?_, ?_, by decide, by decide, by decide⟩
  · intro h1
    unfold check_patterns
    rw [if_pos h1]
  · intro h1 h2
    unfold check_patterns
    rw [if_neg (by simp [h1]), if_pos h2]
  · intro h1 h2 h3
    unfold check_patterns
    rw [if_neg (by simp [h1]), if_neg (by simp [h2]), if_pos h3]
  · intro h1 h2 h3 h4
    unfold check_patterns
    rw [if_neg (by simp [h1]), if_neg (by simp [h2]), if_neg (by simp [h3]), if_pos h4]
  · intro c p h1 h2 h3 h4 hc hcc hp
    unfold check_patterns
    rw [if_neg (by simp [h1]), if_neg (by simp [h2]), if_neg (by simp [h3]),
      if_neg (by simp [h4]), hc]
    simp only [hcc, if_true, hp]
  · intro r hen hslice hscan
    unfold scan at hscan
    rw [hen] at hscan
    simp only [Bool.not_true, Bool.false_eq_true, if_false, hslice, Option.map_some'] at hscan
    cases hscan
    rcases hcp : check_patterns e content with _ | ⟨rid, cat⟩ <;>
      simp [scanContent, hcp]

/-- Witness for `c4_waf_scan_order`: the first-group clause and the
scan-shape clause at the SQL-injection scenario input. -/
theorem c4_waf_scan_order_witness :
    check_patterns (defaultWafEngine .Block) "SELECT id FROM t WHERE x=1 OR 1=1".data =
      some ("SQL-1", "SQL Injection") :=
  (c4_waf_scan_order (defaultWafEngine .Block) []
    "SELECT id FROM t WHERE x=1 OR 1=1".data).1 (by decide)

/-- A `Block`-mode engine with the default rules and `max_body_size = 1`. -/
def wafTinyEngine : WafEngine :=
  { defaultWafEngine .Block with
    config := { enabled := true, mode := .Block, max_body_size := 1,
                custom_patterns := [] } }

/-- C10: `scan` is *not* total.  On a payload longer than `max_body_size`
whose byte at that index falls inside a multi-byte UTF-8 character —
`"é!"` is 3 bytes and byte 1 is the continuation byte of `é` — the Rust
slice `&payload[..max_body_size]` panics, modelled here by `scan` returning
`none`; the same engine truncates an ASCII payload fine. -/
theorem c10_scan_slice_panic :
    utf8Len "é!".data = 3 ∧ wafTinyEngine.config.max_body_size = 1 ∧
    scan wafTinyEngine "é!".data = none ∧
    scan wafTinyEngine "ab!".data =
      some { allowed := true, triggered_rule := none, category := none } := by
  refine ⟨by decide, by decide, by decide, by decide⟩

end NaseejMesh
